import Mathlib

/-!
Verification of the control core of the ESP32 automatic soldering station.

Shallow embedding of the repository's C/C++ sources:
* `fsm_controller.cpp`  — lifecycle state machine (states, events, transition
  table, event queue, statistics, execution context);
* `StepperMotor.cpp` / `stepper_motor_hal.c` — per-axis motion primitive;
* `soldering_iron_hal.c` — PID temperature regulator;
* `gcode_parser.c` — command interpreter;
* `execution_fsm.cpp` — execution sub-state-machine.

Machine integers are modelled as `Nat`/`Int` with explicit reduction modulo
`2^32` at the operations where C performs `uint32_t` arithmetic or casts.
`double` values of the PID regulator are modelled as `ℚ`; every property we
prove about them is a clamp bound, preserved by any rounding.
-/

namespace Solder

/-- Model of `2^32`, the modulus of `uint32_t` arithmetic. -/
def U32 : Nat := 4294967296

/-- C `uint32_t` addition: `(a + b) mod 2^32`. -/
def u32_add (a b : Nat) : Nat := (a + b) % U32

/-- C `uint32_t` subtraction `a - b` (wrapping), for `a`, `b` taken mod `2^32`. -/
def u32_sub (a b : Nat) : Nat := (a % U32 + (U32 - b % U32)) % U32

/-- C `static_cast<uint32_t>` of a signed integer value (two's complement). -/
def u32_of_int (z : Int) : Nat := (z % (U32 : Int)).toNat

/-! ## Lifecycle FSM controller (`fsm_controller.h` / `fsm_controller.cpp`) -/

/-- Model of `fsm_state_t`: the thirteen lifecycle states. -/
inductive FsmState
  | INIT | IDLE | MANUAL_CONTROL | CALIBRATION | READY | HEATING
  | EXECUTING | PAUSED | NORMAL_EXIT | CALIBRATION_ERROR | HEATING_ERROR
  | DATA_ERROR | LOCK
  deriving DecidableEq, Repr

/-- Model of `fsm_event_t`: the nineteen lifecycle events. -/
inductive FsmEvent
  | INIT_DONE | SELECT_MANUAL | EXIT_MANUAL | TASK_SENT | REQUEST_CALIBRATION
  | CALIBRATION_SUCCESS | CALIBRATION_ERROR | CANCEL_TASK | CALIBRATION_DONE
  | TASK_APPROVED | HEATING_SUCCESS | HEATING_ERROR | PAUSE_REQUEST | TASK_DONE
  | DATA_ERROR | EXIT_REQUEST | CONTINUE_TASK | COOLDOWN_COMPLETE | COOLING_ERROR
  deriving DecidableEq, Repr

open FsmState FsmEvent

/-- One row of the static transition table (`state_transition_t`). -/
structure StateTransition where
  from_state : FsmState
  event : FsmEvent
  to_state : FsmState
  deriving DecidableEq, Repr

/-- The static transition table `state_transitions[]`, row for row. -/
def state_transitions : List StateTransition := [
  ⟨INIT, INIT_DONE, IDLE⟩,
  ⟨IDLE, SELECT_MANUAL, MANUAL_CONTROL⟩,
  ⟨IDLE, TASK_SENT, CALIBRATION⟩,
  ⟨IDLE, REQUEST_CALIBRATION, CALIBRATION⟩,
  ⟨MANUAL_CONTROL, EXIT_MANUAL, IDLE⟩,
  ⟨CALIBRATION, FsmEvent.CALIBRATION_SUCCESS, READY⟩,
  ⟨CALIBRATION, FsmEvent.CALIBRATION_ERROR, FsmState.CALIBRATION_ERROR⟩,
  ⟨READY, CANCEL_TASK, IDLE⟩,
  ⟨READY, CALIBRATION_DONE, IDLE⟩,
  ⟨READY, TASK_APPROVED, HEATING⟩,
  ⟨HEATING, HEATING_SUCCESS, EXECUTING⟩,
  ⟨HEATING, FsmEvent.HEATING_ERROR, FsmState.HEATING_ERROR⟩,
  ⟨EXECUTING, PAUSE_REQUEST, PAUSED⟩,
  ⟨EXECUTING, TASK_DONE, NORMAL_EXIT⟩,
  ⟨EXECUTING, FsmEvent.HEATING_ERROR, FsmState.HEATING_ERROR⟩,
  ⟨EXECUTING, FsmEvent.DATA_ERROR, FsmState.DATA_ERROR⟩,
  ⟨PAUSED, EXIT_REQUEST, NORMAL_EXIT⟩,
  ⟨PAUSED, CONTINUE_TASK, HEATING⟩,
  ⟨NORMAL_EXIT, COOLDOWN_COMPLETE, IDLE⟩,
  ⟨NORMAL_EXIT, COOLING_ERROR, FsmState.HEATING_ERROR⟩,
  ⟨FsmState.CALIBRATION_ERROR, FsmEvent.CALIBRATION_ERROR, LOCK⟩,
  ⟨FsmState.HEATING_ERROR, FsmEvent.HEATING_ERROR, LOCK⟩,
  ⟨FsmState.DATA_ERROR, FsmEvent.DATA_ERROR, LOCK⟩]

/-- Model of `find_next_state`: first matching row wins; `none` models the
`FSM_STATE_COUNT` sentinel returned when no row matches. -/
def find_next_state (current_state : FsmState) (event : FsmEvent) :
    Option FsmState :=
  (state_transitions.find? fun t =>
    t.from_state = current_state && t.event = event).map (·.to_state)

/-- Model of `fsm_statistics_t`. `state_enter_count` / `state_duration_ms` are the two
per-state `uint32_t` arrays; the remaining fields are scalar counters. -/
structure FsmStatistics where
  state_enter_count : FsmState → Nat
  state_duration_ms : FsmState → Nat
  last_state_enter_time : Nat
  error_count : Nat
  task_completed_count : Nat

/-- Model of `fsm_execution_context_t` (the opaque `user_context` pointer is zeroed by
the same `memset` and carries no further structure at this layer). -/
structure FsmExecContext where
  start_time_ms : Nat
  iteration_count : Nat
  operation_complete : Bool
  deriving DecidableEq, Repr

/-- Model of `struct fsm_controller_s`.  Hook registration is modelled by the three
`has*` predicates: the engine only checks whether a callback pointer is
non-null before invoking it, and the invocations themselves are recorded in
the action trace of `fsm_controller_process`. -/
structure FsmController where
  current_state : FsmState
  previous_state : FsmState
  is_running : Bool
  state_enter_time : Nat
  event_queue : List FsmEvent
  statistics : FsmStatistics
  exec_context : FsmExecContext
  enable_statistics : Bool
  enable_logging : Bool
  hasEnter : FsmState → Bool
  hasExit : FsmState → Bool
  hasExec : FsmState → Bool

/-- Observable engine actions of one `fsm_controller_process` call: callback
invocations and the diagnostics the engine logs. -/
inductive FsmAction
  | hookExit (s : FsmState)
  | hookEnter (s : FsmState)
  | hookExec (s : FsmState)
  | invalidTransition (s : FsmState) (e : FsmEvent)
  | dropEvent (e : FsmEvent)
  deriving DecidableEq, Repr

/-- Statistics update block of `transition_to_state` (the
`if (handle->config.enable_statistics)` body), `uint32_t` arithmetic. -/
def update_statistics (st : FsmStatistics) (old_state new_state : FsmState)
    (time_in_state : Nat) : FsmStatistics :=
  let st1 := { st with
    state_duration_ms :=
      Function.update st.state_duration_ms old_state
        (u32_add (st.state_duration_ms old_state) time_in_state),
    state_enter_count :=
      Function.update st.state_enter_count new_state
        (u32_add (st.state_enter_count new_state) 1) }
  let st2 := if new_state = FsmState.CALIBRATION_ERROR ∨
                new_state = FsmState.HEATING_ERROR ∨
                new_state = FsmState.DATA_ERROR ∨
                new_state = LOCK
             then { st1 with error_count := u32_add st1.error_count 1 }
             else st1
  if new_state = IDLE ∧ old_state = NORMAL_EXIT
  then { st2 with task_completed_count := u32_add st2.task_completed_count 1 }
  else st2

/-- Model of `transition_to_state`: exit hook, statistics, state update, execution
context reset, enter hook.  `now` is `get_time_ms()`. -/
def transition_to_state (h : FsmController) (new_state : FsmState) (now : Nat) :
    FsmController × List FsmAction :=
  let old_state := h.current_state
  let exit_acts := if h.hasExit old_state then [FsmAction.hookExit old_state] else []
  let stats :=
    if h.enable_statistics then
      update_statistics h.statistics old_state new_state
        (u32_sub now h.state_enter_time)
    else h.statistics
  let h1 := { h with
    previous_state := old_state,
    current_state := new_state,
    state_enter_time := now,
    statistics := stats,
    exec_context := { start_time_ms := now, iteration_count := 0,
                      operation_complete := false } }
  let enter_acts := if h.hasEnter new_state then [FsmAction.hookEnter new_state] else []
  (h1, exit_acts ++ enter_acts)

/-- Model of `fsm_controller_process` (`tick()`): dequeue at most one event, transition
when the table has a matching row, otherwise log the invalid transition and
drop the event; then invoke the current state's execute hook. -/
def fsm_controller_process (h : FsmController) (now : Nat) :
    FsmController × List FsmAction :=
  if h.is_running = false then (h, [])
  else
    let (h1, acts) :=
      match h.event_queue with
      | [] => (h, [])
      | e :: rest =>
        let hq := { h with event_queue := rest }
        match find_next_state h.current_state e with
        | some next_state => transition_to_state hq next_state now
        | none => (hq, [FsmAction.invalidTransition h.current_state e])
    let exec_acts :=
      if h1.hasExec h1.current_state then [FsmAction.hookExec h1.current_state] else []
    (h1, acts ++ exec_acts)

/-- Model of `fsm_controller_post_event`: `xQueueSend` with zero timeout on a queue
created with capacity 10 (`xQueueCreate(10, ...)` in `fsm_controller_init`).
The call never waits: it returns `false` at once when the queue is full,
logging the drop. -/
def fsm_controller_post_event (h : FsmController) (e : FsmEvent) :
    Bool × FsmController × List FsmAction :=
  if 10 ≤ h.event_queue.length then (false, h, [FsmAction.dropEvent e])
  else (true, { h with event_queue := h.event_queue ++ [e] }, [])

/-! ## Stepper motor (`StepperMotor.cpp` / `stepper_motor_hal.c`)

One `Motor` value combines the tracked state of the C++ `StepperMotor` wrapper
(`position_`, `target_position_`, `steps_per_mm`, `positive_direction_`) with
the driver state of `struct stepper_motor_handle_s` (`direction`,
`is_enabled`, `step_time_us`).  Positions are `int32_t`; the claims only
exercise values far from the `int32` boundaries, so they are modelled as `Int`,
while the one place the code casts a possibly negative count to `uint32_t`
uses the explicit mod-`2^32` cast `u32_of_int`. -/

/-- Model of `stepper_direction_t`: `STEPPER_DIR_CLOCKWISE = 0`,
`STEPPER_DIR_COUNTERCLOCKWISE = 1`. -/
inductive StepperDir | cw | ccw
  deriving DecidableEq, Repr

/-- C implicit conversion of the direction enum (0 or 1) to `bool`. -/
def dirToBool : StepperDir → Bool
  | .cw => false
  | .ccw => true

structure Motor where
  position_ : Int
  target_position_ : Int
  steps_per_mm : Nat
  positive_direction_ : StepperDir
  halDirection : StepperDir
  halEnabled : Bool
  halStepTime : Nat
  hasEndpoint : Bool
  endpointTriggered : Bool
  deriving DecidableEq, Repr

def stepper_motor_hal_set_direction (m : Motor) (direction : StepperDir) : Motor :=
  { m with halDirection := direction }

def stepper_motor_hal_get_direction (m : Motor) : StepperDir :=
  m.halDirection

/-- Model of `StepperMotor::setEnable` → `stepper_motor_hal_set_enable`. -/
def setEnable (m : Motor) (enable : Bool) : Motor :=
  { m with halEnabled := enable }

/-- Model of `StepperMotor::setDirection` → `stepper_motor_hal_set_direction`. -/
def setDirection (m : Motor) (direction : StepperDir) : Motor :=
  stepper_motor_hal_set_direction m direction

/-- Modelled from the spec: `stepper_motor_hal_endpoint_reached` is called by
`StepperMotor::isEndpointReached` but its implementation is not under `src/`.
Per the spec's axis-driver contract and the header documentation, it reads the
(active-low) limit switch and reports `false` when no endpoint is configured.
`endpointTriggered` holds the current physical reading. -/
def isEndpointReached (m : Motor) : Bool :=
  m.hasEndpoint && m.endpointTriggered

/-- Model of `StepperMotor::stepMultiple`: updates the tracked position according to
the HAL direction, emits the pulses (`stepper_motor_hal_step_multiple`
changes no tracked state; when the driver is disabled it emits nothing but
the tracked position has already been updated), then resets the position to 0
if the endpoint switch reads triggered. -/
def stepMultiple (m : Motor) (steps : Nat) : Motor :=
  let m1 :=
    if stepper_motor_hal_get_direction m = .cw
    then { m with position_ := m.position_ + steps }
    else { m with position_ := m.position_ - steps }
  if isEndpointReached m1 then { m1 with position_ := 0 } else m1

/-- Model of `StepperMotor::setTargetPosition`: `std::max(int32_t(0), position)`. -/
def setTargetPosition (m : Motor) (position : Int) : Motor :=
  { m with target_position_ := max 0 position }

/-- Model of `StepperMotor::resetPosition`. -/
def resetPosition (m : Motor) : Motor :=
  { m with position_ := 0, target_position_ := 0 }

/-- Model of `StepperMotor::stepMultipleToTarget(max_steps)`.  The direction test is
C's `remaining_steps > 0 == (positive_direction_ == STEPPER_DIR_CLOCKWISE)`;
in the `else` branch `remaining_steps` is negated and then cast with
`static_cast<uint32_t>` — for a negative value that cast wraps mod `2^32`. -/
def stepMultipleToTarget (m : Motor) (max_steps : Nat) : Motor :=
  let current_pos := m.position_
  let remaining_steps := m.target_position_ - current_pos
  if remaining_steps = 0 then m
  else
    let cond := decide (0 < remaining_steps) = decide (m.positive_direction_ = .cw)
    let remaining2 : Int := if cond then remaining_steps else -remaining_steps
    let m1 := stepper_motor_hal_set_direction m (if cond then .cw else .ccw)
    let steps_to_execute := min (u32_of_int remaining2) max_steps
    stepMultiple m1 steps_to_execute

/-- Inter-step delays (µs) of one `stepper_motor_hal_step_multiple(handle,
steps)` call: the loop body waits `handle->step_time_us` after every pulse —
the same configured value at every iteration. -/
def stepper_motor_hal_step_delays (step_time_us steps : Nat) : List Nat :=
  List.replicate steps step_time_us

/-- Delay after the `i`-th step of a `steps`-long run. -/
def stepDelayAt (step_time_us steps i : Nat) : Nat :=
  (stepper_motor_hal_step_delays step_time_us steps).getD i 0

/-- Model of `stepper_motor_hal_set_step_time`: values below 100 µs are raised to the
100 µs floor. -/
def stepper_motor_hal_set_step_time (m : Motor) (step_time_us : Nat) : Motor :=
  { m with halStepTime := if step_time_us < 100 then 100 else step_time_us }

/-- The polling loop of `StepperMotor::calibrate`: poll the switch; if
triggered leave the loop, otherwise burst 50 HAL steps
(`stepper_motor_hal_step_multiple(handle_, 50)` — tracked position is NOT
updated, the wrapper's `stepMultiple` is not used here) and poll again.
`polls` is the finite sequence of switch readings observed so far; `none`
means the switch never read triggered and the loop is still running. -/
def calibrate_loop (m : Motor) : List Bool → Option Motor
  | [] => none
  | p :: rest => if p then some m else calibrate_loop m rest

/-- Model of `StepperMotor::calibrate`.  Note `ennable_state` is assigned from
`stepper_motor_hal_get_direction` — the direction that the preceding line
just set to counterclockwise — converted to `bool`. -/
def calibrate (m : Motor) (polls : List Bool) : Option Motor :=
  let m1 := stepper_motor_hal_set_direction m .ccw
  let ennable_state := dirToBool (stepper_motor_hal_get_direction m1)
  let m2 := setEnable m1 true
  let m3 := setDirection m2
    (if m2.positive_direction_ = .cw then .ccw else .cw)
  (calibrate_loop m3 polls).map fun mz => setEnable (resetPosition mz) ennable_state

/-! ## Soldering iron PID regulator (`soldering_iron_hal.c`)

`double` state is modelled over `ℚ`; the properties proved are clamp bounds
(`fmax`/`fmin` chains), which hold independently of rounding.  The integral
clamp band is the fixed `PID_INTEGRAL_MIN = -50.0` / `PID_INTEGRAL_MAX =
50.0`. -/

structure Iron where
  is_enabled : Bool
  target_temperature : ℚ
  current_power_pct : ℚ
  pid_kp : ℚ
  pid_ki : ℚ
  pid_kd : ℚ
  pid_integral : ℚ
  pid_last_error : ℚ
  pid_last_time_us : Int
  min_temperature : ℚ
  max_temperature : ℚ

/-- Model of `soldering_iron_hal_init` (state fields only; `config` carries the
temperature band, `now_us` is `esp_timer_get_time()`): heater disabled, zero
target and power, default PID constants `Kp=15.0`, `Ki=0.1`, `Kd=0.0`. -/
def soldering_iron_hal_init (min_temperature max_temperature : ℚ) (now_us : Int) : Iron :=
  { is_enabled := false
    target_temperature := 0
    current_power_pct := 0
    pid_kp := 15
    pid_ki := 1/10
    pid_kd := 0
    pid_integral := 0
    pid_last_error := 0
    pid_last_time_us := now_us
    min_temperature := min_temperature
    max_temperature := max_temperature }

/-- Model of `soldering_iron_hal_set_power`: clamp to `[0,100]`, store; the raw PWM
write applies the clamped value when enabled, 0 otherwise. -/
def soldering_iron_hal_set_power (h : Iron) (duty_cycle : ℚ) : Iron :=
  let clamped_power := max 0 (min 100 duty_cycle)
  { h with current_power_pct := clamped_power }

/-- Model of `soldering_iron_hal_set_target_temperature`: clamp into the configured
band; on an actual change reset the integral and last error. -/
def soldering_iron_hal_set_target_temperature (h : Iron) (temperature : ℚ)
    (now_us : Int) : Iron :=
  let clamped_temp := max h.min_temperature (min h.max_temperature temperature)
  if clamped_temp ≠ h.target_temperature then
    { h with target_temperature := clamped_temp
             pid_integral := 0
             pid_last_error := 0
             pid_last_time_us := now_us }
  else h

/-- Model of `soldering_iron_hal_set_enable`: off forces power 0; on resets the PID
accumulator state. -/
def soldering_iron_hal_set_enable (h : Iron) (enable : Bool) (now_us : Int) : Iron :=
  let h1 := { h with is_enabled := enable }
  if enable = false then soldering_iron_hal_set_power h1 0
  else { h1 with pid_integral := 0, pid_last_error := 0, pid_last_time_us := now_us }

/-- Model of `soldering_iron_hal_update_control`: the PID step.  Skips when disabled or
the target is ≤ 0 (forcing power 0 if it was positive), or when the elapsed
time is under 1 ms; otherwise accumulates the clamped integral and applies the
`[0,100]`-clamped output. -/
def soldering_iron_hal_update_control (h : Iron) (current_temperature : ℚ)
    (now_us : Int) : Iron :=
  if h.is_enabled = false ∨ h.target_temperature ≤ 0 then
    if 0 < h.current_power_pct then soldering_iron_hal_set_power h 0 else h
  else
    if ((now_us - h.pid_last_time_us : Int) : ℚ) / 1000000 < 1/1000 then h
    else
      let dt_sec : ℚ := ((now_us - h.pid_last_time_us : Int) : ℚ) / 1000000
      let error := h.target_temperature - current_temperature
      let p_out := h.pid_kp * error
      let pid_integral := max (-50) (min 50 (h.pid_integral + error * dt_sec))
      let i_out := h.pid_ki * pid_integral
      let derivative := (error - h.pid_last_error) / dt_sec
      let d_out := h.pid_kd * derivative
      let output_power := max 0 (min 100 (p_out + i_out + d_out))
      soldering_iron_hal_set_power
        { h with pid_last_time_us := now_us
                 pid_integral := pid_integral
                 pid_last_error := error } output_power

/-- Model of `soldering_iron_hal_set_pid_constants`: store and reset the accumulator. -/
def soldering_iron_hal_set_pid_constants (h : Iron) (kp ki kd : ℚ)
    (now_us : Int) : Iron :=
  { h with pid_kp := kp, pid_ki := ki, pid_kd := kd
           pid_integral := 0, pid_last_error := 0, pid_last_time_us := now_us }

/-- One external interaction with the regulator: a temperature reading fed to
the control step, a retarget, an enable toggle, or a PID-constant change. -/
inductive IronOp
  | update (current_temperature : ℚ) (now_us : Int)
  | setTarget (temperature : ℚ) (now_us : Int)
  | enable (b : Bool) (now_us : Int)
  | setPid (kp ki kd : ℚ) (now_us : Int)

def iron_apply (h : Iron) : IronOp → Iron
  | .update t now => soldering_iron_hal_update_control h t now
  | .setTarget t now => soldering_iron_hal_set_target_temperature h t now
  | .enable b now => soldering_iron_hal_set_enable h b now
  | .setPid kp ki kd now => soldering_iron_hal_set_pid_constants h kp ki kd now

/-- Run a sequence of interactions. -/
def iron_run (h : Iron) (ops : List IronOp) : Iron :=
  ops.foldl iron_apply h

/-- The invariant of claims about the regulator: duty cycle in `[0,100]`,
integral accumulator inside the `[-50,50]` clamp band. -/
def IronInv (h : Iron) : Prop :=
  0 ≤ h.current_power_pct ∧ h.current_power_pct ≤ 100 ∧
  -50 ≤ h.pid_integral ∧ h.pid_integral ≤ 50

/-! ## G-code parser (`gcode_parser.c`)

Lines are `List Char`.  The libc helpers (`isspace`, `isdigit`, `isalpha`,
`toupper`, `atoi`, `strtod`) are modelled on the ASCII/decimal subset the
dialect uses; `strtod` is modelled for plain decimal literals
(`[+-]?digits[.digits]`), which covers every numeric parameter of the
dialect.  Its `double` result is modelled exactly as the decimal value
`num / 10 ^ exp10` (`DecNum`): the dialect's literals are decimal, so this
captures the parsed value without modelling binary `double` rounding. -/

/-- Exact decimal number `num / 10 ^ exp10`: the value a `strtod` call
returns for a plain decimal literal. -/
structure DecNum where
  num : Int
  exp10 : Nat
  deriving DecidableEq, Repr

/-- The rational value of a `DecNum`. -/
def DecNum.toRat (d : DecNum) : ℚ :=
  (d.num : ℚ) / 10 ^ d.exp10

/-- C `isspace` (C locale). -/
def c_isspace (c : Char) : Bool :=
  c = ' ' || c = '\t' || c = '\n' || c = '\x0b' || c = '\x0c' || c = '\r'

/-- C `isdigit`. -/
def c_isdigit (c : Char) : Bool :=
  '0' ≤ c && c ≤ '9'

/-- C `isalpha` (C locale). -/
def c_isalpha (c : Char) : Bool :=
  ('a' ≤ c && c ≤ 'z') || ('A' ≤ c && c ≤ 'Z')

/-- C `toupper` (C locale). -/
def c_toupper (c : Char) : Char :=
  if 'a' ≤ c && c ≤ 'z' then Char.ofNat (c.toNat - 32) else c

/-- Decimal digit run to a number. -/
def digitsToNat (ds : List Char) : Nat :=
  ds.foldl (fun n c => 10 * n + (c.toNat - '0'.toNat)) 0

/-- C `atoi`: leading whitespace, optional sign, digit run (0 when none). -/
def atoi (s : List Char) : Int :=
  let s1 := s.dropWhile c_isspace
  match s1 with
  | '-' :: r => -(digitsToNat (r.takeWhile c_isdigit) : Int)
  | '+' :: r => (digitsToNat (r.takeWhile c_isdigit) : Int)
  | _ => (digitsToNat (s1.takeWhile c_isdigit) : Int)

/-- C `strtod` on plain decimal literals: `none` when no conversion is
performed (`end == ptr` in `parse_parameter`), otherwise the value and the
rest of the string. -/
def strtod (s : List Char) : Option (DecNum × List Char) :=
  let s1 := s.dropWhile c_isspace
  let sgn : Int := match s1 with
    | '-' :: _ => -1
    | _ => 1
  let s2 := match s1 with
    | '-' :: r => r
    | '+' :: r => r
    | _ => s1
  let d1 := s2.takeWhile c_isdigit
  let s3 := s2.dropWhile c_isdigit
  let d2 := match s3 with
    | '.' :: r => r.takeWhile c_isdigit
    | _ => []
  let s4 := match s3 with
    | '.' :: r => r.dropWhile c_isdigit
    | _ => s3
  if d1.isEmpty && d2.isEmpty then none
  else
    some (⟨sgn * ((digitsToNat d1 : Int) * 10 ^ d2.length + (digitsToNat d2 : Int)),
           d2.length⟩, s4)

/-- Model of `gcode_command_type_t`. -/
inductive GcodeCmdType
  | NONE | MOVE | FEED_SOLDER | SET_TEMPERATURE | HOME | DWELL | UNKNOWN
  deriving DecidableEq, Repr

/-- Model of `gcode_command_t`.  `s` is the `uint32_t` solder amount. -/
structure GcodeCommand where
  type : GcodeCmdType
  has_x : Bool
  has_y : Bool
  has_z : Bool
  has_f : Bool
  has_s : Bool
  has_t : Bool
  x : DecNum
  y : DecNum
  z : DecNum
  f : DecNum
  s : Nat
  t : DecNum
  deriving DecidableEq, Repr

/-- The zeroed command produced by `memset(cmd, 0, ...)`. -/
def gcode_command_zero : GcodeCommand :=
  { type := .NONE, has_x := false, has_y := false, has_z := false,
    has_f := false, has_s := false, has_t := false,
    x := ⟨0, 0⟩, y := ⟨0, 0⟩, z := ⟨0, 0⟩, f := ⟨0, 0⟩, s := 0, t := ⟨0, 0⟩ }

/-- C cast `(uint32_t)value` of a `double`: truncation toward zero, then
two's-complement wrap. -/
def dec_to_u32 (d : DecNum) : Nat :=
  u32_of_int (Int.tdiv d.num (10 ^ d.exp10))

/-- Model of `parse_parameter`: a parameter letter followed by a `strtod` number. -/
def parse_parameter (line : List Char) : Option (Char × DecNum × List Char) :=
  match line with
  | [] => none
  | c :: rest =>
    if c_isalpha c = false then none
    else
      match strtod rest with
      | none => none
      | some (v, rest2) => some (c_toupper c, v, rest2)

/-- The `switch (param_char)` of `gcode_parser_parse_line`; an unrecognized
letter is logged and ignored. -/
def apply_param (cmd : GcodeCommand) (param_char : Char) (value : DecNum) : GcodeCommand :=
  if param_char = 'X' then { cmd with has_x := true, x := value }
  else if param_char = 'Y' then { cmd with has_y := true, y := value }
  else if param_char = 'Z' then { cmd with has_z := true, z := value }
  else if param_char = 'F' then { cmd with has_f := true, f := value }
  else if param_char = 'S' then { cmd with has_s := true, s := dec_to_u32 value }
  else if param_char = 'T' then { cmd with has_t := true, t := value }
  else if param_char = 'P' then { cmd with has_t := true, t := value }
  else cmd

/-- The parameter loop of `gcode_parser_parse_line`.  Each successful
iteration consumes at least the parameter letter and one digit, so the line
length bounds the iteration count. -/
def parse_params : Nat → List Char → GcodeCommand → GcodeCommand
  | 0, _, cmd => cmd
  | fuel + 1, line, cmd =>
    let l := line.dropWhile c_isspace
    match l with
    | [] => cmd
    | c :: _ =>
      if c = ';' || c = '\n' || c = '\r' then cmd
      else
        match parse_parameter l with
        | none => cmd
        | some (pc, v, rest) => parse_params fuel rest (apply_param cmd pc v)

/-- Model of `gcode_parser_parse_line`: `none` models a `false` return (line skipped).
Only `G0` and `S` produce commands; `G1`/`G4`/`G28`, other `G` codes and all
`M` codes are skipped. -/
def gcode_parser_parse_line (line : List Char) : Option GcodeCommand :=
  let l := line.dropWhile c_isspace
  match l with
  | [] => none
  | c :: rest0 =>
    if c = ';' || c = '\n' || c = '\r' then none
    else if c_toupper c = 'G' then
      let g_code := atoi rest0
      if g_code = 0 then
        let rest1 := rest0.dropWhile c_isdigit
        let cmd := parse_params rest1.length rest1
          { gcode_command_zero with type := GcodeCmdType.MOVE }
        if cmd.type ≠ GcodeCmdType.NONE ∧ cmd.type ≠ GcodeCmdType.UNKNOWN
        then some cmd else none
      else none
    else if c_toupper c = 'M' then none
    else if c_toupper c = 'S' then
      let feed : Nat → GcodeCommand := fun amount =>
        { gcode_command_zero with
            type := GcodeCmdType.FEED_SOLDER, has_s := true, s := amount }
      let start : GcodeCommand × List Char :=
        match rest0 with
        | d :: _ =>
          if c_isdigit d then
            (feed (u32_of_int (atoi rest0)), rest0.dropWhile c_isdigit)
          else
            (feed 100, rest0)
        | [] => (feed 100, rest0)
      let cmd := parse_params start.2.length start.2 start.1
      if cmd.type ≠ GcodeCmdType.NONE ∧ cmd.type ≠ GcodeCmdType.UNKNOWN
      then some cmd else none
    else none

/-- Model of `gcode_parser_validate_command`. -/
def gcode_parser_validate_command (cmd : GcodeCommand) : Bool :=
  match cmd.type with
  | .MOVE => cmd.has_x || cmd.has_y || cmd.has_z
  | .FEED_SOLDER => cmd.has_s && decide (cmd.s ≠ 0)
  | _ => false

/-- Line extraction of `gcode_parser_get_next_command`: read into a 256-byte
buffer (at most 255 content characters), stopping at `\n` or `\r` (skipping a
following `\n` after `\r`).  Returns the line and the remaining buffer. -/
def extract_line : Nat → List Char → List Char × List Char
  | _, [] => ([], [])
  | 0, rest => ([], rest)
  | cap + 1, c :: rest =>
    if c = '\n' then ([], rest)
    else if c = '\r' then
      match rest with
      | '\n' :: rest2 => ([], rest2)
      | _ => ([], rest)
    else
      let (l, r) := extract_line cap rest
      (c :: l, r)

/-- The skip-invalid-line recursion of `gcode_parser_get_next_command`; every
round consumes at least one character, so the buffer length bounds the
recursion depth (the C original recurses on itself the same way). -/
def get_next_command_loop : Nat → List Char → Option GcodeCommand
  | 0, _ => none
  | _, [] => none
  | fuel + 1, buf =>
    let (line, rest) := extract_line 255 buf
    match gcode_parser_parse_line line with
    | some cmd =>
      if gcode_parser_validate_command cmd then some cmd
      else get_next_command_loop fuel rest
    | none =>
      if rest.isEmpty then none
      else get_next_command_loop fuel rest

/-- Model of `gcode_parser_get_next_command` on the unread part of the program buffer:
`none` models a `false` return (end of program, nothing valid left). -/
def gcode_parser_get_next_command (buf : List Char) : Option GcodeCommand :=
  get_next_command_loop (buf.length + 1) buf

/-! ## Execution sub-FSM (`execution_fsm.cpp`), point-list mode

`Machine` packs the four global motor instances (`motor_x`, `motor_y`,
`motor_z`, `motor_s` of `main.cpp`) with the `execution_sub_fsm_t` value;
`exec_sub_fsm_process` mutates them through the `StepperMotor` operations
above.  `now` is `get_time_ms()`. -/

/-- Model of `solder_point_t`. -/
structure SolderPoint where
  x : Int
  y : Int
  z : Int
  solder : Bool
  solder_time_ms : Nat
  deriving DecidableEq, Repr

/-- Model of `execution_config_t`. -/
structure ExecConfig where
  safe_z_height : Int
  soldering_z_height : Int
  home_x : Int
  home_y : Int
  home_z : Int
  deriving DecidableEq, Repr

/-- Model of `exec_sub_state_t`. -/
inductive ExecState
  | IDLE | MOVE_TO_POINT | MOVE_DOWN | SOLDERING | MOVE_UP | RETURN_HOME | COMPLETE
  deriving DecidableEq, Repr

/-- Model of `execution_sub_fsm_t` (gcode-mode fields are not needed by the point-list
claims). -/
structure ExecFsm where
  sub_state : ExecState
  current_point_index : Nat
  state_enter_time : Nat
  solder_start_time : Nat
  solder_start_pos : Int
  solder_points_completed : Nat
  operation_in_progress : Bool
  config : ExecConfig
  deriving DecidableEq, Repr

structure Machine where
  motor_x : Motor
  motor_y : Motor
  motor_z : Motor
  motor_s : Motor
  fsm : ExecFsm
  deriving DecidableEq, Repr

/-- The static `transition_to_state` of `execution_fsm.cpp` (distinct from the
lifecycle controller's function of the same name). -/
def exec_transition_to_state (f : ExecFsm) (new_state : ExecState) (now : Nat) : ExecFsm :=
  if f.sub_state ≠ new_state then
    { f with sub_state := new_state, state_enter_time := now,
             operation_in_progress := false }
  else f

/-- Placeholder for `points[i]` reads; the claims only touch in-bounds
indices. -/
def default_solder_point : SolderPoint :=
  { x := 0, y := 0, z := 0, solder := false, solder_time_ms := 0 }

/-- Model of `EXEC_STATE_IDLE` case of `exec_sub_fsm_process`. -/
def exec_process_idle (mach : Machine) (points : List SolderPoint) (now : Nat) : Machine :=
  let f := mach.fsm
  if f.current_point_index < points.length then
    { mach with fsm := exec_transition_to_state f .MOVE_TO_POINT now }
  else
    { mach with fsm := exec_transition_to_state f .RETURN_HOME now }

/-- Model of `EXEC_STATE_MOVE_TO_POINT` case of `exec_sub_fsm_process`. -/
def exec_process_move_to_point (mach : Machine) (points : List SolderPoint) (now : Nat) : Machine :=
  let f := mach.fsm
  let target := points.getD f.current_point_index default_solder_point
  let mx := if f.operation_in_progress = false
            then setTargetPosition mach.motor_x target.x else mach.motor_x
  let my := if f.operation_in_progress = false
            then setTargetPosition mach.motor_y target.y else mach.motor_y
  let mz := if f.operation_in_progress = false
            then setTargetPosition mach.motor_z f.config.safe_z_height else mach.motor_z
  let f1 := if f.operation_in_progress = false
            then { f with operation_in_progress := true } else f
  let x_reached := decide (mx.position_ = target.x)
  let y_reached := decide (my.position_ = target.y)
  let z_safe := decide (mz.position_ = f.config.safe_z_height)
  -- the unconditional solder-feed lines marked "Test code for s axis" in
  -- the source: target := position + 300, then advance with budget 300
  let ms := stepMultipleToTarget
    (setTargetPosition mach.motor_s (mach.motor_s.position_ + 300)) 300
  if x_reached && y_reached && z_safe then
    { mach with motor_x := mx, motor_y := my, motor_z := mz, motor_s := ms,
                fsm := exec_transition_to_state f1 .MOVE_DOWN now }
  else
    let mx2 := if x_reached then mx
               else stepMultipleToTarget mx (mx.position_ - mx.target_position_).natAbs
    let my2 := if y_reached then my
               else stepMultipleToTarget my (my.position_ - my.target_position_).natAbs
    let mz2 := if z_safe then mz
               else stepMultipleToTarget mz (mz.position_ - mz.target_position_).natAbs
    { mach with motor_x := mx2, motor_y := my2, motor_z := mz2, motor_s := ms,
                fsm := f1 }

/-- Model of `EXEC_STATE_MOVE_DOWN` case of `exec_sub_fsm_process`. -/
def exec_process_move_down (mach : Machine) (now : Nat) : Machine :=
  let f := mach.fsm
  let mz := if f.operation_in_progress = false
            then setTargetPosition mach.motor_z f.config.soldering_z_height
            else mach.motor_z
  let f1 := if f.operation_in_progress = false
            then { f with operation_in_progress := true } else f
  if decide (mz.position_ = f.config.soldering_z_height) then
    { mach with motor_z := mz, fsm := exec_transition_to_state f1 .SOLDERING now }
  else
    { mach with
        motor_z := stepMultipleToTarget mz (mz.position_ - mz.target_position_).natAbs,
        fsm := f1 }

/-- Model of `EXEC_STATE_SOLDERING` case of `exec_sub_fsm_process`. -/
def exec_process_soldering (mach : Machine) (points : List SolderPoint) (now : Nat) : Machine :=
  let f := mach.fsm
  let solder_pos := points.getD f.current_point_index default_solder_point
  let solder_duration := solder_pos.solder_time_ms
  let entry : Motor × ExecFsm :=
    if f.operation_in_progress = false then
      let ms0 := setEnable mach.motor_s true
      let feed_amount : Int := (solder_duration / 10 : Nat)
      (setTargetPosition ms0 (ms0.position_ + feed_amount),
       { f with solder_start_pos := ms0.position_, solder_start_time := now,
                operation_in_progress := true })
    else (mach.motor_s, f)
  let ms := entry.1
  let f1 := entry.2
  let elapsed := u32_sub now f1.solder_start_time
  if elapsed < solder_duration then
    let ms2 := if ms.position_ ≠ ms.target_position_
               then stepMultipleToTarget ms (ms.position_ - ms.target_position_).natAbs
               else ms
    { mach with motor_s := ms2, fsm := f1 }
  else
    let f2 := { f1 with solder_points_completed := f1.solder_points_completed + 1 }
    { mach with motor_s := setEnable ms false,
                fsm := exec_transition_to_state f2 .MOVE_UP now }

/-- Model of `EXEC_STATE_MOVE_UP` case of `exec_sub_fsm_process`. -/
def exec_process_move_up (mach : Machine) (points : List SolderPoint) (now : Nat) : Machine :=
  let f := mach.fsm
  let mz := if f.operation_in_progress = false
            then setTargetPosition mach.motor_z f.config.safe_z_height
            else mach.motor_z
  let f1 := if f.operation_in_progress = false
            then { f with operation_in_progress := true } else f
  if decide (mz.position_ = f.config.safe_z_height) then
    let f2 := { f1 with current_point_index := f1.current_point_index + 1 }
    if f2.current_point_index < points.length then
      { mach with motor_z := mz, fsm := exec_transition_to_state f2 .MOVE_TO_POINT now }
    else
      { mach with motor_z := mz, fsm := exec_transition_to_state f2 .RETURN_HOME now }
  else
    { mach with
        motor_z := stepMultipleToTarget mz (mz.position_ - mz.target_position_).natAbs,
        fsm := f1 }

/-- Model of `EXEC_STATE_RETURN_HOME` case of `exec_sub_fsm_process`. -/
def exec_process_return_home (mach : Machine) (now : Nat) : Machine :=
  let f := mach.fsm
  let mx := if f.operation_in_progress = false
            then setTargetPosition mach.motor_x f.config.home_x else mach.motor_x
  let my := if f.operation_in_progress = false
            then setTargetPosition mach.motor_y f.config.home_y else mach.motor_y
  let mz := if f.operation_in_progress = false
            then setTargetPosition mach.motor_z f.config.home_z else mach.motor_z
  let f1 := if f.operation_in_progress = false
            then { f with operation_in_progress := true } else f
  let x_home := decide (mx.position_ = f.config.home_x)
  let y_home := decide (my.position_ = f.config.home_y)
  let z_home := decide (mz.position_ = f.config.home_z)
  if x_home && y_home && z_home then
    { mach with motor_x := mx, motor_y := my, motor_z := mz,
                fsm := exec_transition_to_state f1 .COMPLETE now }
  else
    -- note the budgets here are |position|, not |position - target|
    let mx2 := if x_home then mx else stepMultipleToTarget mx mx.position_.natAbs
    let my2 := if y_home then my else stepMultipleToTarget my my.position_.natAbs
    let mz2 := if z_home then mz else stepMultipleToTarget mz mz.position_.natAbs
    { mach with motor_x := mx2, motor_y := my2, motor_z := mz2, fsm := f1 }

/-- Model of `exec_sub_fsm_process(fsm, points, num_points)` with
`num_points = points.length`, dispatching on the current sub-state exactly as
the source `switch` does. -/
def exec_sub_fsm_process (mach : Machine) (points : List SolderPoint) (now : Nat) : Machine :=
  match mach.fsm.sub_state with
  | .IDLE => exec_process_idle mach points now
  | .MOVE_TO_POINT => exec_process_move_to_point mach points now
  | .MOVE_DOWN => exec_process_move_down mach now
  | .SOLDERING => exec_process_soldering mach points now
  | .MOVE_UP => exec_process_move_up mach points now
  | .RETURN_HOME => exec_process_return_home mach now
  | .COMPLETE => mach

/-! ## Arithmetic helper lemmas -/

theorem u32_add_eq {a b : Nat} (h : a + b < U32) : u32_add a b = a + b := by
  unfold u32_add U32 at *
  omega

theorem u32_sub_eq {a b : Nat} (hb : b ≤ a) (ha : a < U32) : u32_sub a b = a - b := by
  unfold u32_sub U32 at *
  omega

/-! ## Sample states shared by the witnesses -/

/-- A concrete statistics record. -/
def sampleStats : FsmStatistics :=
  { state_enter_count := fun _ => 3
    state_duration_ms := fun _ => 40
    last_state_enter_time := 11
    error_count := 2
    task_completed_count := 1 }

/-- A concrete running controller in state `LOCK` with one queued event. -/
def sampleController : FsmController :=
  { current_state := FsmState.LOCK
    previous_state := FsmState.DATA_ERROR
    is_running := true
    state_enter_time := 5
    event_queue := [FsmEvent.INIT_DONE]
    statistics := sampleStats
    exec_context := { start_time_ms := 1, iteration_count := 2, operation_complete := false }
    enable_statistics := true
    enable_logging := false
    hasEnter := fun _ => true
    hasExit := fun _ => true
    hasExec := fun _ => true }

/-- The same controller with its event queue filled to capacity (10). -/
def sampleFullController : FsmController :=
  { sampleController with
      event_queue := List.replicate 10 FsmEvent.TASK_SENT }

/-! ## Claims -/

/-- C1: for every (current state, event) pair with no entry in the static
transition table, a `tick()` (`fsm_controller_process`) that dequeues that
event leaves the controller unchanged except for popping the event: the
current state, statistics and execution context are untouched, no enter/exit
hook runs, the event is discarded, an invalid-transition diagnostic is
reported, and the execute hook of the current state is still invoked exactly
once. -/
theorem C1_invalid_event_leaves_state_unchanged
    (h : FsmController) (e : FsmEvent) (rest : List FsmEvent) (now : Nat)
    (hrun : h.is_running = true)
    (hq : h.event_queue = e :: rest)
    (hfind : find_next_state h.current_state e = none)
    (hexec : h.hasExec h.current_state = true) :
    fsm_controller_process h now =
      ({ h with event_queue := rest },
       [FsmAction.invalidTransition h.current_state e,
        FsmAction.hookExec h.current_state]) := by
  simp only [fsm_controller_process, hrun, hq, hfind, hexec]
  rfl

/-- Witness for C1: the terminal state `LOCK` has no row for `INIT_DONE`. -/
theorem C1_witness :
    fsm_controller_process sampleController 7 =
      ({ sampleController with event_queue := [] },
       [FsmAction.invalidTransition FsmState.LOCK FsmEvent.INIT_DONE,
        FsmAction.hookExec FsmState.LOCK]) :=
  C1_invalid_event_leaves_state_unchanged sampleController FsmEvent.INIT_DONE
    [] 7 rfl rfl rfl rfl

/-- C2: with statistics collection enabled, a valid transition adds the
elapsed time to the left state's cumulative duration, increments exactly the
entered state's enter counter by 1, increments `error_count` by 1 exactly when
the entered state is `CALIBRATION_ERROR`, `HEATING_ERROR`, `DATA_ERROR` or
`LOCK`, increments `task_completed_count` exactly on `NORMAL_EXIT → IDLE`,
and changes nothing else in the record.  (The counters are `uint32_t`; the
boundedness hypotheses place them below the wrap point.) -/
theorem C2_transition_statistics_exact
    (h : FsmController) (e : FsmEvent) (ts : FsmState) (now : Nat)
    (henable : h.enable_statistics = true)
    (_hvalid : (⟨h.current_state, e, ts⟩ : StateTransition) ∈ state_transitions)
    (hnow : now < U32)
    (henter : h.state_enter_time ≤ now)
    (hdur : h.statistics.state_duration_ms h.current_state
              + (now - h.state_enter_time) < U32)
    (hcnt : h.statistics.state_enter_count ts + 1 < U32)
    (herr : h.statistics.error_count + 1 < U32)
    (htask : h.statistics.task_completed_count + 1 < U32) :
    ((transition_to_state h ts now).1.statistics.state_duration_ms h.current_state
        = h.statistics.state_duration_ms h.current_state + (now - h.state_enter_time)) ∧
    (∀ s, s ≠ h.current_state →
      (transition_to_state h ts now).1.statistics.state_duration_ms s
        = h.statistics.state_duration_ms s) ∧
    ((transition_to_state h ts now).1.statistics.state_enter_count ts
        = h.statistics.state_enter_count ts + 1) ∧
    (∀ s, s ≠ ts →
      (transition_to_state h ts now).1.statistics.state_enter_count s
        = h.statistics.state_enter_count s) ∧
    ((transition_to_state h ts now).1.statistics.error_count
        = if ts = FsmState.CALIBRATION_ERROR ∨ ts = FsmState.HEATING_ERROR ∨
             ts = FsmState.DATA_ERROR ∨ ts = FsmState.LOCK
          then h.statistics.error_count + 1 else h.statistics.error_count) ∧
    ((transition_to_state h ts now).1.statistics.task_completed_count
        = if ts = FsmState.IDLE ∧ h.current_state = FsmState.NORMAL_EXIT
          then h.statistics.task_completed_count + 1
          else h.statistics.task_completed_count) ∧
    ((transition_to_state h ts now).1.statistics.last_state_enter_time
        = h.statistics.last_state_enter_time) := by
  have hsub : u32_sub now h.state_enter_time = now - h.state_enter_time :=
    u32_sub_eq henter hnow
  simp only [transition_to_state, henable, if_true, update_statistics, hsub]
  refine ⟨?_, ?_, ?_, ?_, ?_, ?_, ?_⟩
  · split <;> split <;>
      simp [Function.update_same, u32_add_eq hdur]
  · intro s hs
    split <;> split <;>
      simp [Function.update_noteq hs]
  · split <;> split <;>
      simp [Function.update_same, u32_add_eq hcnt]
  · intro s hs
    split <;> split <;>
      simp [Function.update_noteq hs]
  · split <;> split <;> rename_i h1 h2 <;>
      simp_all [u32_add_eq herr]
  · split <;> split <;> rename_i h1 h2 <;>
      simp_all [u32_add_eq htask]
  · split <;> split <;> rfl

/-- Witness for C2: the valid transition `NORMAL_EXIT → IDLE` on
`COOLDOWN_COMPLETE`. -/
theorem C2_witness :
    ((transition_to_state
        { sampleController with current_state := FsmState.NORMAL_EXIT }
        FsmState.IDLE 9).1.statistics.state_enter_count FsmState.IDLE = 4) ∧
    ((transition_to_state
        { sampleController with current_state := FsmState.NORMAL_EXIT }
        FsmState.IDLE 9).1.statistics.task_completed_count = 2) := by
  have h := C2_transition_statistics_exact
    { sampleController with current_state := FsmState.NORMAL_EXIT }
    FsmEvent.COOLDOWN_COMPLETE FsmState.IDLE 9
    rfl (by decide) (by decide) (by decide) (by decide) (by decide)
    (by decide) (by decide)
  refine ⟨?_, ?_⟩
  · exact h.2.2.1
  · rw [h.2.2.2.2.2.1]
    decide

/-- C3: `fsm_controller_post_event` appends to the capacity-10 FIFO and never
blocks: on a full queue it leaves the queue untouched, reports the drop and
returns `false`; on any queue below capacity it returns `true` and the queue
grows by exactly the posted event. -/
theorem C3_post_event_bounded_fifo (h : FsmController) (e : FsmEvent) :
    (h.event_queue.length = 10 →
      fsm_controller_post_event h e = (false, h, [FsmAction.dropEvent e])) ∧
    (h.event_queue.length < 10 →
      fsm_controller_post_event h e =
        (true, { h with event_queue := h.event_queue ++ [e] }, []) ∧
      (h.event_queue ++ [e]).length = h.event_queue.length + 1) := by
  constructor
  · intro hfull
    simp [fsm_controller_post_event, hfull]
  · intro hlt
    constructor
    · simp [fsm_controller_post_event, Nat.not_le.mpr hlt]
    · simp

/-- Witness for C3: the 11th post on a full queue is dropped; a post on a
1-element queue succeeds. -/
theorem C3_witness :
    (fsm_controller_post_event sampleFullController FsmEvent.TASK_SENT
      = (false, sampleFullController, [FsmAction.dropEvent FsmEvent.TASK_SENT])) ∧
    (fsm_controller_post_event sampleController FsmEvent.TASK_SENT
      = (true, { sampleController with
                   event_queue := sampleController.event_queue ++ [FsmEvent.TASK_SENT] },
         [])) :=
  ⟨(C3_post_event_bounded_fifo sampleFullController FsmEvent.TASK_SENT).1 (by decide),
   ((C3_post_event_bounded_fifo sampleController FsmEvent.TASK_SENT).2 (by decide)).1⟩

/-- An axis with counterclockwise positive polarity — exactly how `main.cpp`
configures `motor_x` — at position 0 with target 10. -/
def ccwAxis : Motor :=
  { position_ := 0
    target_position_ := 10
    steps_per_mm := 100
    positive_direction_ := StepperDir.ccw
    halDirection := StepperDir.cw
    halEnabled := true
    halStepTime := 1000
    hasEndpoint := false
    endpointTriggered := false }

/-- C4 (code bug): for an axis whose configured positive direction is
counterclockwise, `stepMultipleToTarget` moves AWAY from the target.  With
position 0, target 10 and a budget of 3 steps, the negated remainder is cast
to `uint32_t` (wrapping to `2^32 - 10`), the budget of 3 steps wins the `min`,
and the motor steps counterclockwise: the position becomes −3 and the
distance to the target grows from 10 to 13 — contradicting both the claim and
the function's own "towards target position" documentation. -/
theorem C4_ccw_polarity_moves_away_from_target :
    (stepMultipleToTarget ccwAxis 3).position_ = -3 ∧
    ((stepMultipleToTarget ccwAxis 3).target_position_
       - (stepMultipleToTarget ccwAxis 3).position_).natAbs = 13 ∧
    (ccwAxis.target_position_ - ccwAxis.position_).natAbs = 10 := by
  decide

/-- Clamping into `[lo, hi]` by `fmax lo (fmin hi x)` lands in `[lo, hi]`. -/
theorem clamp_bounds {lo hi x : ℚ} (hlohi : lo ≤ hi) :
    lo ≤ max lo (min hi x) ∧ max lo (min hi x) ≤ hi :=
  ⟨le_max_left _ _, max_le hlohi (min_le_left _ _)⟩

/-- Helper lemma: `soldering_iron_hal_set_power` clamps the stored duty cycle into
`[0,100]` and leaves the integral untouched. -/
theorem IronInv_set_power (h : Iron) (d : ℚ)
    (hi0 : -50 ≤ h.pid_integral) (hi1 : h.pid_integral ≤ 50) :
    IronInv (soldering_iron_hal_set_power h d) := by
  unfold IronInv soldering_iron_hal_set_power
  exact ⟨le_max_left _ _, max_le (by norm_num) (min_le_left _ _), hi0, hi1⟩

/-- The PID control step preserves the invariant. -/
theorem IronInv_update_control (h : Iron) (t : ℚ) (now : Int)
    (hinv : IronInv h) : IronInv (soldering_iron_hal_update_control h t now) := by
  obtain ⟨hp0, hp1, hi0, hi1⟩ := hinv
  unfold soldering_iron_hal_update_control
  split
  · split
    · exact IronInv_set_power h 0 hi0 hi1
    · exact ⟨hp0, hp1, hi0, hi1⟩
  · split
    · exact ⟨hp0, hp1, hi0, hi1⟩
    · exact IronInv_set_power _ _ (le_max_left _ _)
        (max_le (by norm_num) (min_le_left _ _))

/-- Helper lemma: `IronInv` is preserved by every regulator operation. -/
theorem IronInv_apply (h : Iron) (op : IronOp) (hinv : IronInv h) :
    IronInv (iron_apply h op) := by
  obtain ⟨hp0, hp1, hi0, hi1⟩ := hinv
  cases op with
  | update t now =>
    exact IronInv_update_control h t now ⟨hp0, hp1, hi0, hi1⟩
  | setTarget t now =>
    simp only [iron_apply, soldering_iron_hal_set_target_temperature]
    split
    · exact ⟨hp0, hp1, by norm_num, by norm_num⟩
    · exact ⟨hp0, hp1, hi0, hi1⟩
  | enable b now =>
    simp only [iron_apply]
    unfold soldering_iron_hal_set_enable
    split
    · exact IronInv_set_power _ 0 hi0 hi1
    · exact ⟨hp0, hp1, by norm_num, by norm_num⟩
  | setPid kp ki kd now =>
    simp only [iron_apply, soldering_iron_hal_set_pid_constants]
    exact ⟨hp0, hp1, by norm_num, by norm_num⟩

/-- C5: for every configured temperature band, every boot time and every
sequence of temperature readings, retargets, enable toggles and PID-constant
changes, the regulator's applied duty cycle stays within `[0,100]` and the
integral accumulator stays within the fixed `[-50,50]` clamp band after every
operation. -/
theorem C5_duty_and_integral_always_clamped
    (min_temperature max_temperature : ℚ) (t0 : Int) (ops : List IronOp) :
    IronInv (iron_run (soldering_iron_hal_init min_temperature max_temperature t0) ops) := by
  have hinit : IronInv (soldering_iron_hal_init min_temperature max_temperature t0) := by
    unfold IronInv soldering_iron_hal_init
    norm_num
  have hrun : ∀ (l : List IronOp) (h : Iron), IronInv h → IronInv (iron_run h l) := by
    intro l
    induction l with
    | nil => intro h hh; exact hh
    | cons op rest ih =>
      intro h hh
      exact ih (iron_apply h op) (IronInv_apply h op hh)
  exact hrun ops _ hinit

/-- Witness for C5: a concrete interaction sequence — enable, retarget to
300 °C, three control updates (cold reading, hot reading, huge time step),
a PID retune and another update — ends inside both clamp bands. -/
theorem C5_witness :
    IronInv (iron_run (soldering_iron_hal_init 20 450 0)
      [IronOp.enable true 1000,
       IronOp.setTarget 300 2000,
       IronOp.update 25 1002000,
       IronOp.update 500 2002000,
       IronOp.update 25 2000002000,
       IronOp.setPid 2 (1/2) 1 2000003000,
       IronOp.update 100 2001003000]) :=
  C5_duty_and_integral_always_clamped 20 450 0
    [IronOp.enable true 1000,
     IronOp.setTarget 300 2000,
     IronOp.update 25 1002000,
     IronOp.update 500 2002000,
     IronOp.update 25 2000002000,
     IronOp.setPid 2 (1/2) 1 2000003000,
     IronOp.update 100 2001003000]

/-- C6 counterexample: in a 10-step run at the default configured step time
of 1000 µs (well above the 100 µs floor), the per-step delay has not moved at
all by the end of the first half of the run — it is 1000 µs at step 0 and
still 1000 µs at step 4, so it does not decrease toward the floor. -/
theorem C6_counterexample_delay_never_decreases :
    stepDelayAt 1000 10 0 = 1000 ∧ stepDelayAt 1000 10 4 = 1000 ∧
    ¬ stepDelayAt 1000 10 4 < stepDelayAt 1000 10 0 := by
  decide

/-- Helper lemma: `List.getD` on a replicated list. -/
theorem replicate_getD {α : Type} (a d : α) :
    ∀ (n i : Nat), i < n → (List.replicate n a).getD i d = a := by
  intro n
  induction n with
  | zero => intro i hi; omega
  | succ k ih =>
    intro i hi
    cases i with
    | zero => rfl
    | succ j => exact ih j (by omega)

/-- C6 amended: during a multi-step run the per-step delay is CONSTANT, equal
to the configured step time — there is no ramp — and
`stepper_motor_hal_set_step_time` raises any requested value below 100 µs to
the 100 µs floor, keeping the configured delay at or above the floor. -/
theorem C6_constant_delay_with_floor (st n i : Nat) (hi : i < n)
    (m : Motor) (t : Nat) :
    stepDelayAt st n i = st ∧
    100 ≤ (stepper_motor_hal_set_step_time m t).halStepTime ∧
    (100 ≤ t → (stepper_motor_hal_set_step_time m t).halStepTime = t) := by
  refine ⟨replicate_getD st 0 n i hi, ?_, ?_⟩
  · simp only [stepper_motor_hal_set_step_time]
    split <;> omega
  · intro ht
    simp only [stepper_motor_hal_set_step_time]
    split <;> omega

/-- Witness for C6: step 2 of a 5-step run at 700 µs waits 700 µs; a request
of 50 µs is raised to the floor. -/
theorem C6_witness :
    stepDelayAt 700 5 2 = 700 ∧
    100 ≤ (stepper_motor_hal_set_step_time ccwAxis 50).halStepTime ∧
    (100 ≤ 50 → (stepper_motor_hal_set_step_time ccwAxis 50).halStepTime = 50) :=
  C6_constant_delay_with_floor 700 5 2 (by decide) ccwAxis 50

/-- A disabled axis with clockwise polarity whose limit switch is already
triggered when calibration starts. -/
def disabledAxis : Motor :=
  { position_ := 42
    target_position_ := 7
    steps_per_mm := 100
    positive_direction_ := StepperDir.cw
    halDirection := StepperDir.cw
    halEnabled := false
    halStepTime := 1000
    hasEndpoint := false
    endpointTriggered := false }

/-- C7 counterexample: (a) a disabled axis whose switch triggers on the first
poll comes out of `calibrate` ENABLED — the code saves the just-set direction
value (counterclockwise = 1, converted to `bool` = true) instead of the prior
enable flag, so the prior enabled state (false) is not restored; (b) for an
axis with no limit switch every poll reads untriggered and the call has still
not returned after five 50-step bursts — calibration is not a returning
no-op. -/
theorem C7_counterexample_calibrate :
    ((calibrate disabledAxis [true]).map Motor.halEnabled = some true) ∧
    disabledAxis.halEnabled = false ∧
    calibrate disabledAxis (List.replicate 5 false) = none := by
  decide

/-- The polling loop keeps the motor state fixed: it exits with the entry
state at the first triggered poll and runs on otherwise. -/
theorem calibrate_loop_eq (m : Motor) (polls : List Bool) :
    calibrate_loop m polls = if true ∈ polls then some m else none := by
  induction polls with
  | nil => rfl
  | cons p rest ih =>
    cases p with
    | true => simp [calibrate_loop]
    | false => simp [calibrate_loop, ih]

/-- C7 amended: `calibrate` bursts 50 HAL steps between limit-switch polls in
the direction opposite the configured polarity until a poll reads triggered;
it then resets the tracked position and target to 0 and sets the enable flag
to the saved value — the just-set HAL direction (counterclockwise, value 1)
converted to `bool`, i.e. always enabled rather than the prior enabled state.
If no poll ever reads triggered — in particular for an axis with no limit
switch, whose polls all read untriggered — the loop has not finished and the
call does not return. -/
theorem C7_calibrate_resets_and_enables (m : Motor) (polls : List Bool) :
    (true ∈ polls →
      (calibrate m polls).map
          (fun mz => (mz.position_, mz.target_position_, mz.halEnabled,
                      mz.halDirection))
        = some (0, 0, true,
            if m.positive_direction_ = StepperDir.cw
            then StepperDir.ccw else StepperDir.cw)) ∧
    ((∀ p ∈ polls, p = false) → calibrate m polls = none) := by
  constructor
  · intro htrig
    simp [calibrate, calibrate_loop_eq, htrig, setEnable, resetPosition,
      setDirection, stepper_motor_hal_set_direction,
      stepper_motor_hal_get_direction, dirToBool]
  · intro hfalse
    have : true ∉ polls := by
      intro hmem
      exact Bool.true_eq_false.mp (hfalse true hmem) |>.elim
    simp [calibrate, calibrate_loop_eq, this]

/-- Witness for C7: switch triggers on the second poll for a clockwise-
polarity axis; an all-false poll sequence never completes. -/
theorem C7_witness :
    ((calibrate disabledAxis [false, true]).map
        (fun mz => (mz.position_, mz.target_position_, mz.halEnabled,
                    mz.halDirection))
      = some (0, 0, true, StepperDir.ccw)) ∧
    calibrate disabledAxis [false, false] = none :=
  ⟨(C7_calibrate_resets_and_enables disabledAxis [false, true]).1 (by decide),
   (C7_calibrate_resets_and_enables disabledAxis [false, false]).2 (by decide)⟩

/-- The command `Move{x:10, y:20}` with no Z marker. -/
def moveX10Y20 : GcodeCommand :=
  { gcode_command_zero with
      type := GcodeCmdType.MOVE, has_x := true, x := ⟨10, 0⟩,
      has_y := true, y := ⟨20, 0⟩ }

/-- The command `FeedSolder{amount:75}`. -/
def feed75 : GcodeCommand :=
  { gcode_command_zero with
      type := GcodeCmdType.FEED_SOLDER, has_s := true, s := 75 }

/-- C8: parsing `"G0 X10 Y20"` yields exactly the valid `MOVE` command with
x = 10, y = 20 and no Z marker; parsing `"S75"` yields exactly the valid
`FEED_SOLDER` command with amount 75; parsing `"G28"` yields no command, and
`gcode_parser_get_next_command` skips the line, handing the caller the next
valid command when one follows and nothing otherwise. -/
theorem C8_parser_round_trip :
    gcode_parser_parse_line ("G0 X10 Y20".toList) = some moveX10Y20 ∧
    moveX10Y20.x.toRat = 10 ∧
    moveX10Y20.y.toRat = 20 ∧
    gcode_parser_validate_command moveX10Y20 = true ∧
    moveX10Y20.has_z = false ∧
    gcode_parser_parse_line ("S75".toList) = some feed75 ∧
    gcode_parser_validate_command feed75 = true ∧
    gcode_parser_parse_line ("G28".toList) = none ∧
    gcode_parser_get_next_command ("G28".toList) = none ∧
    gcode_parser_get_next_command ("G28\nS75".toList) = some feed75 := by
  refine ⟨by decide, by norm_num [DecNum.toRat, moveX10Y20, gcode_command_zero],
    by norm_num [DecNum.toRat, moveX10Y20, gcode_command_zero],
    by decide, by decide, by decide, by decide, by decide, by decide⟩

/-- Helper lemma: `u32_of_int` is the identity on `[0, 2^32)`. -/
theorem u32_of_int_eq {r : Int} (h0 : 0 ≤ r) (h1 : r < (U32 : Int)) :
    u32_of_int r = r.toNat := by
  unfold u32_of_int U32 at *
  omega

/-- Helper lemma: `stepMultipleToTarget` is a no-op when the axis is already at its
target. -/
theorem stepMultipleToTarget_at_target (m : Motor) (k : Nat)
    (h0 : m.target_position_ = m.position_) :
    stepMultipleToTarget m k = m := by
  simp only [stepMultipleToTarget]
  rw [if_pos (by omega)]

/-- For a clockwise-polarity axis below its target with no endpoint switch,
one `stepMultipleToTarget` call with the full budget `|position - target|`
steps clockwise exactly onto the target (for distances below the `uint32`
wrap). -/
theorem stepMultipleToTarget_cw_below (m : Motor)
    (hpol : m.positive_direction_ = StepperDir.cw)
    (hnoend : m.hasEndpoint = false)
    (hgt : m.position_ < m.target_position_)
    (hrem : (m.position_ - m.target_position_).natAbs < U32) :
    stepMultipleToTarget m (m.position_ - m.target_position_).natAbs
      = { m with halDirection := StepperDir.cw, position_ := m.target_position_ } := by
  have hr : (0 : Int) < m.target_position_ - m.position_ := by omega
  have hcast : u32_of_int (m.target_position_ - m.position_)
      = (m.target_position_ - m.position_).toNat := by
    refine u32_of_int_eq (by omega) ?_
    unfold U32 at *
    omega
  have hcond : decide (0 < m.target_position_ - m.position_)
      = decide (m.positive_direction_ = StepperDir.cw) := by
    simp [hr, hpol]
  simp only [stepMultipleToTarget]
  rw [if_neg (by omega)]
  simp only [if_pos hcond, hcast]
  have hmin : min (m.target_position_ - m.position_).toNat
      (m.position_ - m.target_position_).natAbs
      = (m.target_position_ - m.position_).toNat := by omega
  rw [hmin]
  simp only [stepMultiple, stepper_motor_hal_set_direction,
    stepper_motor_hal_get_direction, isEndpointReached]
  simp only [if_true, hnoend, Bool.false_and, Bool.false_eq_true, if_false,
    Motor.mk.injEq]
  simp only [and_true, true_and]
  omega

/-- For a clockwise-polarity axis above its target with no endpoint switch,
one `stepMultipleToTarget` call with the full budget `|position - target|`
steps counterclockwise exactly onto the target (for distances below the
`uint32` wrap). -/
theorem stepMultipleToTarget_cw_above (m : Motor)
    (hpol : m.positive_direction_ = StepperDir.cw)
    (hnoend : m.hasEndpoint = false)
    (hlt : m.target_position_ < m.position_)
    (hrem : (m.position_ - m.target_position_).natAbs < U32) :
    stepMultipleToTarget m (m.position_ - m.target_position_).natAbs
      = { m with halDirection := StepperDir.ccw, position_ := m.target_position_ } := by
  have hr : m.target_position_ - m.position_ < (0 : Int) := by omega
  have hcast : u32_of_int (-(m.target_position_ - m.position_))
      = (-(m.target_position_ - m.position_)).toNat := by
    refine u32_of_int_eq (by omega) ?_
    unfold U32 at *
    omega
  have hcond : ¬ (decide (0 < m.target_position_ - m.position_)
      = decide (m.positive_direction_ = StepperDir.cw)) := by
    simp [not_lt.mpr (le_of_lt hr), hpol]
  simp only [stepMultipleToTarget]
  rw [if_neg (by omega)]
  simp only [if_neg hcond, hcast]
  have hmin : min (-(m.target_position_ - m.position_)).toNat
      (m.position_ - m.target_position_).natAbs
      = (-(m.target_position_ - m.position_)).toNat := by omega
  rw [hmin]
  simp only [stepMultiple, stepper_motor_hal_set_direction,
    stepper_motor_hal_get_direction, isEndpointReached]
  simp only [show (StepperDir.ccw = StepperDir.cw) = False by simp, if_false,
    hnoend, Bool.false_and, Bool.false_eq_true, Motor.mk.injEq]
  simp only [and_true, true_and]
  omega

/-- Helper lemma: `u32_sub` of equal arguments is 0 (elapsed time right after recording the
start timestamp). -/
theorem u32_sub_self (a : Nat) : u32_sub a a = 0 := by
  unfold u32_sub U32
  omega

/-- C9: in point-list mode, in the `SOLDERING` state (for a clockwise-
polarity solder-feed axis with no endpoint switch, nonnegative position and a
`uint32` feed duration):
(1) on the first tick (`operation_in_progress` still false, duration > 0) the
sequencer enables the feed axis, sets its target to position + duration/10,
records the start position and start time, advances the axis toward the
target, and stays in `SOLDERING`;
(2) on a later tick with elapsed time < duration it advances the feed axis to
its target and changes neither the enable flag, the completed-point counter
nor the state;
(3) on the first tick with elapsed time ≥ duration it disables the feed axis,
increments the completed-point counter by exactly 1 and transitions to
`MOVE_UP` without feeding further. -/
theorem C9_soldering_entry_feed_completion
    (mach : Machine) (points : List SolderPoint) (now : Nat)
    (hstate : mach.fsm.sub_state = ExecState.SOLDERING)
    (_hidx : mach.fsm.current_point_index < points.length)
    (hpol : mach.motor_s.positive_direction_ = StepperDir.cw)
    (hnoend : mach.motor_s.hasEndpoint = false)
    (hpos : 0 ≤ mach.motor_s.position_)
    (hdur : (points.getD mach.fsm.current_point_index default_solder_point).solder_time_ms
              < U32)
    (hbound : (mach.motor_s.position_ - mach.motor_s.target_position_).natAbs < U32) :
    (mach.fsm.operation_in_progress = false →
      0 < (points.getD mach.fsm.current_point_index default_solder_point).solder_time_ms →
      ((exec_sub_fsm_process mach points now).motor_s.halEnabled = true ∧
       (exec_sub_fsm_process mach points now).motor_s.target_position_
         = mach.motor_s.position_
           + ((points.getD mach.fsm.current_point_index
                 default_solder_point).solder_time_ms / 10 : Nat) ∧
       (exec_sub_fsm_process mach points now).fsm.solder_start_time = now ∧
       (exec_sub_fsm_process mach points now).fsm.solder_start_pos
         = mach.motor_s.position_ ∧
       (exec_sub_fsm_process mach points now).motor_s.position_
         = mach.motor_s.position_
           + ((points.getD mach.fsm.current_point_index
                 default_solder_point).solder_time_ms / 10 : Nat) ∧
       (exec_sub_fsm_process mach points now).fsm.sub_state = ExecState.SOLDERING ∧
       (exec_sub_fsm_process mach points now).fsm.solder_points_completed
         = mach.fsm.solder_points_completed)) ∧
    (mach.fsm.operation_in_progress = true →
      u32_sub now mach.fsm.solder_start_time
        < (points.getD mach.fsm.current_point_index default_solder_point).solder_time_ms →
      ((exec_sub_fsm_process mach points now).motor_s.position_
         = mach.motor_s.target_position_ ∧
       (exec_sub_fsm_process mach points now).motor_s.target_position_
         = mach.motor_s.target_position_ ∧
       (exec_sub_fsm_process mach points now).motor_s.halEnabled
         = mach.motor_s.halEnabled ∧
       (exec_sub_fsm_process mach points now).fsm.sub_state = ExecState.SOLDERING ∧
       (exec_sub_fsm_process mach points now).fsm.solder_points_completed
         = mach.fsm.solder_points_completed)) ∧
    (mach.fsm.operation_in_progress = true →
      (points.getD mach.fsm.current_point_index default_solder_point).solder_time_ms
        ≤ u32_sub now mach.fsm.solder_start_time →
      ((exec_sub_fsm_process mach points now).motor_s.halEnabled = false ∧
       (exec_sub_fsm_process mach points now).fsm.solder_points_completed
         = mach.fsm.solder_points_completed + 1 ∧
       (exec_sub_fsm_process mach points now).fsm.sub_state = ExecState.MOVE_UP ∧
       (exec_sub_fsm_process mach points now).motor_s.position_
         = mach.motor_s.position_)) := by
  have hproc : exec_sub_fsm_process mach points now
      = exec_process_soldering mach points now := by
    simp only [exec_sub_fsm_process, hstate]
  have hU32 : U32 = 4294967296 := rfl
  set dur := (points.getD mach.fsm.current_point_index
      default_solder_point).solder_time_ms with hdurdef
  refine ⟨?_, ?_, ?_⟩
  · intro hop hd
    rw [hproc]
    have hmax : (0 : Int) ⊔ (mach.motor_s.position_ + (dur / 10 : Nat))
        = mach.motor_s.position_ + (dur / 10 : Nat) := by
      omega
    simp only [exec_process_soldering, hop, setEnable, setTargetPosition,
      eq_self_iff_true, if_true, ← hdurdef, hmax, u32_sub_self, if_pos hd]
    by_cases hfa : (dur / 10 : Nat) = 0
    · rw [if_neg (by simp [hfa])]
      simp [hfa, hstate]
    · rw [if_pos (by omega)]
      rw [stepMultipleToTarget_cw_below _ (by exact hpol) (by exact hnoend)
        (by show mach.motor_s.position_
              < mach.motor_s.position_ + (dur / 10 : Nat)
            omega)
        (by show (mach.motor_s.position_
              - (mach.motor_s.position_ + (dur / 10 : Nat))).natAbs < U32
            omega)]
      simp [hstate]
  · intro hop helapsed
    rw [hproc]
    simp only [exec_process_soldering, hop, Bool.true_eq_false, if_false,
      ← hdurdef, if_pos helapsed]
    by_cases heq : mach.motor_s.position_ = mach.motor_s.target_position_
    · rw [if_neg (by simpa using heq)]
      simp [heq, hstate]
    · rw [if_pos (by simpa using heq)]
      rcases lt_or_gt_of_ne heq with hlt | hgt
      · rw [stepMultipleToTarget_cw_below _ hpol hnoend hlt hbound]
        simp [hstate]
      · rw [stepMultipleToTarget_cw_above _ hpol hnoend hgt hbound]
        simp [hstate]
  · intro hop helapsed
    rw [hproc]
    simp only [exec_process_soldering, hop, Bool.true_eq_false, if_false,
      ← hdurdef, if_neg (not_lt.mpr helapsed)]
    simp [setEnable, exec_transition_to_state, hstate]

/-- The solder-feed axis as configured in `main.cpp` (clockwise polarity, no
endpoint switch), at position 100 and enabled state false. -/
def sampleMotorS : Motor :=
  { position_ := 100
    target_position_ := 100
    steps_per_mm := 100
    positive_direction_ := StepperDir.cw
    halDirection := StepperDir.cw
    halEnabled := false
    halStepTime := 1000
    hasEndpoint := false
    endpointTriggered := false }

/-- A sample point: solder for 250 ms at (500, 600). -/
def samplePoint : SolderPoint :=
  { x := 500, y := 600, z := 0, solder := true, solder_time_ms := 250 }

/-- A machine about to execute its first tick in the `SOLDERING` state. -/
def sampleMachine : Machine :=
  { motor_x := { sampleMotorS with position_ := 500, target_position_ := 500 }
    motor_y := { sampleMotorS with position_ := 600, target_position_ := 600 }
    motor_z := { sampleMotorS with position_ := 18000, target_position_ := 18000 }
    motor_s := sampleMotorS
    fsm := { sub_state := ExecState.SOLDERING
             current_point_index := 0
             state_enter_time := 3
             solder_start_time := 0
             solder_start_pos := 0
             solder_points_completed := 0
             operation_in_progress := false
             config := { safe_z_height := 16000, soldering_z_height := 18000,
                         home_x := 0, home_y := 0, home_z := 0 } } }

/-- Witness for C9: the entry tick of `SOLDERING` on a 250 ms point enables
the feed axis, targets 100 + 25, records start data, and feeds. -/
theorem C9_witness :
    (exec_sub_fsm_process sampleMachine [samplePoint] 7).motor_s.halEnabled = true ∧
    (exec_sub_fsm_process sampleMachine [samplePoint] 7).motor_s.target_position_
      = sampleMachine.motor_s.position_
        + (([samplePoint].getD sampleMachine.fsm.current_point_index
              default_solder_point).solder_time_ms / 10 : Nat) ∧
    (exec_sub_fsm_process sampleMachine [samplePoint] 7).fsm.solder_start_time = 7 ∧
    (exec_sub_fsm_process sampleMachine [samplePoint] 7).fsm.solder_start_pos
      = sampleMachine.motor_s.position_ ∧
    (exec_sub_fsm_process sampleMachine [samplePoint] 7).motor_s.position_
      = sampleMachine.motor_s.position_
        + (([samplePoint].getD sampleMachine.fsm.current_point_index
              default_solder_point).solder_time_ms / 10 : Nat) ∧
    (exec_sub_fsm_process sampleMachine [samplePoint] 7).fsm.sub_state
      = ExecState.SOLDERING ∧
    (exec_sub_fsm_process sampleMachine [samplePoint] 7).fsm.solder_points_completed
      = sampleMachine.fsm.solder_points_completed :=
  (C9_soldering_entry_feed_completion sampleMachine [samplePoint] 7 rfl
    (by decide) rfl rfl (by decide) (by decide) (by decide)).1 rfl (by decide)

/-- C10: in point-list mode, on every `MOVE_TO_POINT` tick taken before the
X, Y and Z targets are all reached (clockwise-polarity solder-feed axis with
no endpoint switch and nonnegative position, as configured in `main.cpp`),
the sequencer also retargets the solder-feed axis to its current position
plus 300 and advances it by the full 300-step budget — the solder-feed axis
does not stay unchanged while X, Y and Z are being positioned — and the
sequencer stays in `MOVE_TO_POINT`. -/
theorem C10_move_to_point_drives_feed_axis
    (mach : Machine) (points : List SolderPoint) (now : Nat)
    (hstate : mach.fsm.sub_state = ExecState.MOVE_TO_POINT)
    (hpol : mach.motor_s.positive_direction_ = StepperDir.cw)
    (hnoend : mach.motor_s.hasEndpoint = false)
    (hpos : 0 ≤ mach.motor_s.position_)
    (hnotall : ¬ (mach.motor_x.position_
          = (points.getD mach.fsm.current_point_index default_solder_point).x ∧
        mach.motor_y.position_
          = (points.getD mach.fsm.current_point_index default_solder_point).y ∧
        mach.motor_z.position_ = mach.fsm.config.safe_z_height)) :
    (exec_sub_fsm_process mach points now).motor_s.target_position_
      = mach.motor_s.position_ + 300 ∧
    (exec_sub_fsm_process mach points now).motor_s.position_
      = mach.motor_s.position_ + 300 ∧
    (exec_sub_fsm_process mach points now).fsm.sub_state
      = ExecState.MOVE_TO_POINT := by
  have hproc : exec_sub_fsm_process mach points now
      = exec_process_move_to_point mach points now := by
    simp only [exec_sub_fsm_process, hstate]
  rw [hproc]
  have hmax : (0 : Int) ⊔ (mach.motor_s.position_ + 300)
      = mach.motor_s.position_ + 300 := by omega
  have hkey : stepMultipleToTarget
      (setTargetPosition mach.motor_s (mach.motor_s.position_ + 300)) 300
      = { mach.motor_s with
            target_position_ := mach.motor_s.position_ + 300
            halDirection := StepperDir.cw
            position_ := mach.motor_s.position_ + 300 } := by
    have h300 : (300 : Nat)
        = ((setTargetPosition mach.motor_s (mach.motor_s.position_ + 300)).position_
           - (setTargetPosition mach.motor_s
               (mach.motor_s.position_ + 300)).target_position_).natAbs := by
      simp only [setTargetPosition, hmax]
      omega
    rw [h300, stepMultipleToTarget_cw_below _ (by exact hpol) (by exact hnoend)
      (by show mach.motor_s.position_ < (0 : Int) ⊔ (mach.motor_s.position_ + 300)
          omega)
      (by show (mach.motor_s.position_
            - ((0 : Int) ⊔ (mach.motor_s.position_ + 300))).natAbs < U32
          have hU32 : U32 = 4294967296 := rfl
          omega)]
    simp [setTargetPosition, hmax]
  have hcond : ¬ (((decide (mach.motor_x.position_
        = (points.getD mach.fsm.current_point_index default_solder_point).x) &&
      decide (mach.motor_y.position_
        = (points.getD mach.fsm.current_point_index default_solder_point).y)) &&
      decide (mach.motor_z.position_ = mach.fsm.config.safe_z_height)) = true) := by
    simp only [Bool.and_eq_true, decide_eq_true_eq]
    rintro ⟨⟨hx, hy⟩, hz⟩
    exact hnotall ⟨hx, hy, hz⟩
  have hsetpos : ∀ (m : Motor) (v : Int),
      (setTargetPosition m v).position_ = m.position_ := fun _ _ => rfl
  cases hop : mach.fsm.operation_in_progress with
  | false =>
    simp only [exec_process_move_to_point, hop, eq_self_iff_true, if_true,
      hkey, hsetpos]
    rw [if_neg (by simpa using hcond)]
    simp [hstate]
  | true =>
    simp only [exec_process_move_to_point, hop, Bool.true_eq_false, if_false,
      hkey, hsetpos]
    rw [if_neg (by simpa using hcond)]
    simp [hstate]

/-- A machine in `MOVE_TO_POINT` whose X axis has not yet reached the
point. -/
def sampleMachineMove : Machine :=
  { sampleMachine with
      motor_x := { sampleMotorS with position_ := 0, target_position_ := 0 }
      fsm := { sampleMachine.fsm with sub_state := ExecState.MOVE_TO_POINT } }

/-- Witness for C10: with X still at 0 (target 500), the tick drives the
solder-feed axis from 100 to 400. -/
theorem C10_witness :
    (exec_sub_fsm_process sampleMachineMove [samplePoint] 7).motor_s.target_position_
      = sampleMachineMove.motor_s.position_ + 300 ∧
    (exec_sub_fsm_process sampleMachineMove [samplePoint] 7).motor_s.position_
      = sampleMachineMove.motor_s.position_ + 300 ∧
    (exec_sub_fsm_process sampleMachineMove [samplePoint] 7).fsm.sub_state
      = ExecState.MOVE_TO_POINT :=
  C10_move_to_point_drives_feed_axis sampleMachineMove [samplePoint] 7 rfl rfl rfl
    (by decide) (by decide)

end Solder
